/-
Verification of the `accessory` accessor generator (package `generator`,
file `generator.go`) against its natural-language specification.

The Go code is shallowly embedded below.  Strings are modelled with Lean
`String`/`List Char` restricted to the ASCII behaviour of the Go string
functions that appear in the source (`strings.Title`, `strings.ToLower`,
byte indexing, byte-wise comparison); all concrete inputs used in the
development are ASCII.  The external canonical formatter `format.Source`
is a parameter `fmtSrc : String → Except String String` of the pipeline;
the filesystem write performed by `afero.WriteFile` is modelled by
returning the `(path, content)` pair that would be written.  A Go panic
(index out of range) is modelled by `Option.none` propagation.
-/
import Mathlib

namespace Accessory

/-- Modelled from the spec: `types.Import` — an import declaration of one
source file, `{ alias, path }` (`Name`, `PkgPath` in the Go model). -/
structure PkgImport where
  name : String
  pkgPath : String
deriving DecidableEq, Repr

/-- Modelled from the spec: `types.Tag` — per-field accessor metadata.
Each of `getter`/`setter` is `none` (absent), `some ""` (present, derive
the default name) or `some v` with `v ≠ ""` (present, use `v` verbatim),
mirroring the Go `*string` fields where the empty string selects the
default name. -/
structure Tag where
  getter : Option String
  setter : Option String
deriving DecidableEq, Repr

/-- Modelled from the spec: `types.Field` — `{ name, declared_type,
optional tag }` (`Name`, `DataType`, `Tag` in the Go model). -/
structure Field where
  name : String
  dataType : String
  tag : Option Tag
deriving DecidableEq, Repr

/-- Modelled from the spec: `types.Struct` — a struct declaration. -/
structure Struct where
  name : String
  fields : List Field
deriving DecidableEq, Repr

/-- Modelled from the spec: `types.File` — one source file with its
own import table and its struct declarations, in source order. -/
structure File where
  imports : List PkgImport
  structs : List Struct
deriving DecidableEq, Repr

/-- Modelled from the spec: `types.Package` — `{ name, directory, files }`. -/
structure Package where
  name : String
  dir : String
  files : List File
deriving DecidableEq, Repr

/-- `strings.TrimPrefix(s, "*")`: drop one leading `'*'` if present. -/
def stripPtr (s : String) : String :=
  match s.toList with
  | '*' :: rest => rest.asString
  | _ => s

/-- `strings.Split(strings.TrimPrefix(dataType, "*"), ".")[0]` — the
qualifier of a declared type: everything before the first `'.'` (the whole
name when there is no dot). -/
def qualifier (dataType : String) : String :=
  ((stripPtr dataType).toList.takeWhile (fun c => c ≠ '.')).asString

/-- `strings.ToLower`, ASCII fragment. -/
def strToLower (s : String) : String :=
  (s.toList.map Char.toLower).asString

/-- ASCII fragment of the Go `strings.isSeparator` predicate used by
`strings.Title`: ASCII alphanumerics and underscore are not separators,
every other ASCII character is. -/
def isSepChar (c : Char) : Bool :=
  !(c.isAlphanum || c == '_')

/-- Character-wise worker for `strings.Title`: `prev` is the previous
character (initially a space); a character following a separator is
title-cased (ASCII: upper-cased). -/
def titleChars : Char → List Char → List Char
  | _, [] => []
  | prev, c :: rest => (if isSepChar prev then c.toUpper else c) :: titleChars c rest

/-- `strings.Title`, ASCII fragment. -/
def strTitle (s : String) : String :=
  (titleChars ' ' s.toList).asString

/-- `generator.receiverName`: the user override when non-empty, otherwise
`strings.ToLower(string(structName[0]))`.  Indexing `structName[0]` panics
in Go when the struct name is empty; the panic is modelled by `none`. -/
def receiverName (userInput structName : String) : Option String :=
  if userInput = "" then
    match structName.toList with
    | [] => none
    | c :: _ => some c.toLower.toString
  else
    some userInput

/-- Method-name rule of `getterGenerator`: an empty tag value selects
`strings.Title(field.Name)`, anything else is used verbatim. -/
def getterMethodName (tagValue fieldName : String) : String :=
  if tagValue = "" then strTitle fieldName else tagValue

/-- Method-name rule of `setterGenerator`: an empty tag value selects
`"Set" + strings.Title(field.Name)`, anything else is used verbatim. -/
def setterMethodName (tagValue fieldName : String) : String :=
  if tagValue = "" then "Set" ++ strTitle fieldName else tagValue

/-- The getter template of `getterGenerator`, instantiated.  `text/template`
execution on this fixed template is plain substitution and cannot fail. -/
def renderGetter (recv structName methodName fieldName dataType : String) : String :=
  "\nfunc (" ++ recv ++ " *" ++ structName ++ ") " ++ methodName ++ "() "
    ++ dataType ++ " \x7b\n\treturn " ++ recv ++ "." ++ fieldName ++ "\n\x7d"

/-- The setter template of `setterGenerator`, instantiated. -/
def renderSetter (recv structName methodName fieldName dataType : String) : String :=
  "\nfunc (" ++ recv ++ " *" ++ structName ++ ") " ++ methodName ++ "(val "
    ++ dataType ++ ") \x7b\n\t" ++ recv ++ "." ++ fieldName ++ " = val\n\x7d"

/-- Accessor texts contributed by one field, in emission order (getter
before setter), per the inner loop of `Generate`: a field with no tag is
skipped; otherwise each non-nil tag side is rendered.  `none` models the
receiver-derivation panic on an empty struct name. -/
def fieldAccessors (userReceiver structName : String) (field : Field) : Option (List String) :=
  match field.tag with
  | none => some []
  | some tg => do
    let gs ← match tg.getter with
      | none => pure ([] : List String)
      | some v => do
        let recv ← receiverName userReceiver structName
        pure [renderGetter recv structName (getterMethodName v field.name) field.name field.dataType]
    let ss ← match tg.setter with
      | none => pure ([] : List String)
      | some v => do
        let recv ← receiverName userReceiver structName
        pure [renderSetter recv structName (setterMethodName v field.name) field.name field.dataType]
    pure (gs ++ ss)

/-- Accessor texts contributed by one struct, in field order. -/
def structAccessors (userReceiver : String) (st : Struct) : Option (List String) :=
  (st.fields.mapM (fieldAccessors userReceiver st.name)).map List.flatten

/-- All accessor texts collected by the loops of `Generate`: files in
order, structs whose name equals the requested type name in order, fields
in order. -/
def genAccessors (userReceiver : String) (pkg : Package) (typeName : String) :
    Option (List String) :=
  (pkg.files.mapM fun (f : File) =>
    ((f.structs.filter fun st => st.name == typeName).mapM
        (structAccessors userReceiver)).map List.flatten).map List.flatten

/-- One step of the import-collection loop of `Generate` (lines 43–51):
for a tagged field, if the qualifier of its declared type is not yet a key
of the accumulated map, look it up in the owning file's import list and
record the first match, if any. -/
def resolveImport (fileImports : List PkgImport) (acc : List PkgImport)
    (dataType : String) : List PkgImport :=
  let typePkg := qualifier dataType
  if (acc.find? fun p => p.name == typePkg).isSome then acc
  else
    match fileImports.find? fun p => p.name == typePkg with
    | some p => acc ++ [p]
    | none => acc

/-- The import map accumulated by `Generate`, as an assoc list in
insertion order (the Go `map[string]string` holds the same key/value set;
its nondeterministic iteration order is treated separately, see
`GenerateWith`). -/
def genImports (pkg : Package) (typeName : String) : List PkgImport :=
  pkg.files.foldl
    (fun acc f =>
      (f.structs.filter fun st => st.name == typeName).foldl
        (fun acc2 st =>
          (st.fields.filter fun fld => fld.tag.isSome).foldl
            (fun acc3 fld => resolveImport f.imports acc3 fld.dataType) acc2)
        acc)
    []

/-- `path/filepath.Base` for slash-separated paths. -/
def filepathBase (p : String) : String :=
  if p = "" then "."
  else
    let rcs := p.toList.reverse.dropWhile (fun c => c == '/')
    if rcs.isEmpty then "/"
    else ((rcs.takeWhile fun c => c ≠ '/').reverse).asString

/-- Byte-wise (here: ASCII character-wise) lexicographic `≤` on strings,
as used by Go string comparison in `sort.Strings`. -/
def charListLe : List Char → List Char → Bool
  | [], _ => true
  | _ :: _, [] => false
  | a :: as, b :: bs =>
    if a.toNat < b.toNat then true
    else if b.toNat < a.toNat then false
    else charListLe as bs

/-- Propositional form of the Go string order. -/
def StrLe (a b : String) : Prop :=
  charListLe a.toList b.toList = true

instance : DecidableRel StrLe := fun a b => by
  unfold StrLe; infer_instance

instance : IsTotal String StrLe :=
  ⟨fun s t => by
    unfold StrLe
    suffices h : ∀ (x y : List Char), charListLe x y = true ∨ charListLe y x = true from h _ _
    intro x
    induction x with
    | nil => intro y; left; rfl
    | cons a as ih =>
      intro y
      cases y with
      | nil => right; rfl
      | cons b bs =>
        simp only [charListLe]
        rcases Nat.lt_trichotomy a.toNat b.toNat with hlt | heq | hgt
        · simp [hlt]
        · simp [heq, Nat.lt_irrefl]
          exact ih bs
        · simp [hgt, Nat.lt_asymm hgt]⟩

instance : IsTrans String StrLe :=
  ⟨fun s t u => by
    unfold StrLe
    suffices h : ∀ (x y z : List Char), charListLe x y = true → charListLe y z = true →
        charListLe x z = true from h _ _ _
    intro x
    induction x with
    | nil => intro y z _ _; rfl
    | cons a as ih =>
      intro y z h1 h2
      cases y with
      | nil => simp [charListLe] at h1
      | cons b bs =>
        cases z with
        | nil => simp [charListLe] at h2
        | cons c cs =>
          simp only [charListLe] at h1 h2 ⊢
          rcases Nat.lt_trichotomy a.toNat b.toNat with hab | hab | hab
          · rcases Nat.lt_trichotomy b.toNat c.toNat with hbc | hbc | hbc
            · simp [Nat.lt_trans hab hbc]
            · simp [hbc ▸ hab]
            · simp [Nat.lt_asymm hbc, hbc] at h2
          · rcases Nat.lt_trichotomy b.toNat c.toNat with hbc | hbc | hbc
            · simp [hab ▸ hbc]
            · have hac : a.toNat = c.toNat := hab.trans hbc
              simp [hab, Nat.lt_irrefl] at h1
              simp [hbc, Nat.lt_irrefl] at h2
              simp [hac, Nat.lt_irrefl]
              exact ih bs cs h1 h2
            · simp [Nat.lt_asymm hbc, hbc] at h2
          · simp [Nat.lt_asymm hab, hab] at h1⟩

instance : IsAntisymm String StrLe :=
  ⟨fun s t h1 h2 => by
    unfold StrLe at h1 h2
    suffices h : ∀ (x y : List Char), charListLe x y = true → charListLe y x = true → x = y by
      cases s with
      | mk ds =>
        cases t with
        | mk dt => exact congrArg String.mk (h ds dt h1 h2)
    intro x
    induction x with
    | nil =>
      intro y _ hy
      cases y with
      | nil => rfl
      | cons b bs => simp [charListLe] at hy
    | cons a as ih =>
      intro y hx hy
      cases y with
      | nil => simp [charListLe] at hx
      | cons b bs =>
        simp only [charListLe] at hx hy
        rcases Nat.lt_trichotomy a.toNat b.toNat with hab | hab | hab
        · simp [Nat.lt_asymm hab, hab] at hy
        · have hchar : a = b := Char.eq_of_val_eq (UInt32.ext hab)
          simp [hab, Nat.lt_irrefl] at hx hy
          rw [hchar, ih bs hx hy]
        · simp [Nat.lt_asymm hab, hab] at hx⟩

/-- `sort.Strings`: sort ascending in the Go string order (modelled with
insertion sort; any sorting algorithm yields the same sorted list). -/
def sortStrings (l : List String) : List String :=
  List.insertionSort StrLe l

/-- Go map lookup `importMap[name]` for a name known to be a key. -/
def lookupPath (importList : List PkgImport) (impName : String) : String :=
  match importList.find? fun p => p.name == impName with
  | some p => p.pkgPath
  | none => ""

/-- One line of the import block (lines 103–107): a bare quoted path when
the alias equals the last path segment, an aliased form otherwise. -/
def renderImportLine (impName path : String) : String :=
  if impName == filepathBase path then "\t\"" ++ path ++ "\"\n"
  else "\t" ++ impName ++ " \"" ++ path ++ "\"\n"

/-- The import block of `generator.write`: empty when the map is empty,
otherwise the keys sorted ascending, one line each. -/
def importBlock (importList : List PkgImport) : String :=
  if importList.length > 0 then
    let names := sortStrings (importList.map fun p => p.name)
    "import" ++ " (\n"
      ++ String.join (names.map fun n => renderImportLine n (lookupPath importList n))
      ++ ")\n"
  else ""

/-- The fixed generated-file header followed by the package clause and a
blank line, exactly as printed by `generator.write` (lines 87–90). -/
def headerAndPackage (pkgName : String) : String :=
  "// Code generated by accessory; DO NOT EDIT.\n\npackage " ++ pkgName ++ "\n\n"

/-- `generator.write`: header, package clause, optional import block, then
every accessor followed by a newline. -/
def write (pkgName : String) (importList : List PkgImport) (accessors : List String) :
    String :=
  headerAndPackage pkgName
    ++ importBlock importList
    ++ String.join (accessors.map fun a => a ++ "\n")

/-- First rewrite pass of `generator.outputFile`: the regex replacement
`(.)([A-Z][a-z]+)` → `${1}_${2}` (leftmost non-overlapping matches, greedy
lowercase run). -/
def pass1 : List Char → List Char
  | c :: d :: e :: rest =>
    if h : d.isUpper && e.isLower then
      c :: '_' :: d :: ((e :: rest).takeWhile Char.isLower
        ++ pass1 ((e :: rest).dropWhile Char.isLower))
    else
      c :: pass1 (d :: e :: rest)
  | l => l
termination_by l => l.length
decreasing_by
  · have hel : e.isLower = true := ((Bool.and_eq_true _ _).mp h).right
    have hlen : (List.dropWhile Char.isLower rest).length ≤ rest.length :=
      (List.dropWhile_sublist _).length_le
    simp only [List.dropWhile_cons, hel, if_true, List.length_cons]
    omega
  · simp only [List.length_cons]
    omega

/-- Second rewrite pass of `generator.outputFile`: the regex replacement
`([a-z0-9])([A-Z])` → `${1}_${2}`. -/
def pass2 : List Char → List Char
  | c :: d :: rest =>
    if (c.isLower || c.isDigit) && d.isUpper then c :: '_' :: d :: pass2 rest
    else c :: pass2 (d :: rest)
  | l => l
termination_by l => l.length

/-- `filepath.Join(dir, name)` for a clean directory and a simple relative
name (path cleaning on other shapes is not needed by the generator). -/
def joinPath (dir name : String) : String :=
  if dir = "" then name else dir ++ "/" ++ name

/-- `generator.outputFile`: with no override, snake_case the type name via
the two rewrite passes, lowercase, append `_accessor.go`, and join with the
package directory; with an override, join the override with the directory. -/
def outputFile (output typeName dir : String) : String :=
  let out :=
    if output = "" then
      strToLower ((pass2 (pass1 typeName.toList)).asString ++ "_accessor.go")
    else output
  joinPath dir out

/-- `generator.format`: run the canonical formatter; on failure return the
raw buffer together with the error, on success the formatted source. -/
def gformat (fmtSrc : String → Except String String) (buf : String) :
    String × Option String :=
  match fmtSrc buf with
  | Except.error e => (buf, some e)
  | Except.ok src => (src, none)

/-- The buffer assembled by `Generate` just before formatting, with
the import map enumerated in the given order. -/
def assembleWith (pkg : Package) (typeName userReceiver : String)
    (importList : List PkgImport) : Option String :=
  (genAccessors userReceiver pkg typeName).map (write pkg.name importList)

/-- The buffer assembled by `Generate` just before formatting. -/
def assemble (pkg : Package) (typeName userReceiver : String) : Option String :=
  assembleWith pkg typeName userReceiver (genImports pkg typeName)

/-- `generator.Generate`, with the iteration order of the Go import map
supplied explicitly as `importList` (any permutation of the accumulated
entries).  The result is `none` for a panic, `some (Except.error e)` when
the error `e` is returned to the caller, and `some (Except.ok (path,
content))` when `content` is written to `path`. -/
def GenerateWith (fmtSrc : String → Except String String) (pkg : Package)
    (typeName output userReceiver : String) (importList : List PkgImport) :
    Option (Except String (String × String)) :=
  (assembleWith pkg typeName userReceiver importList).map fun buf =>
    match gformat fmtSrc buf with
    | (_, some e) => Except.error e
    | (content, none) => Except.ok (outputFile output typeName pkg.dir, content)

/-- `generator.Generate` with the canonical (insertion-order) enumeration
of the import map. -/
def Generate (fmtSrc : String → Except String String) (pkg : Package)
    (typeName output userReceiver : String) :
    Option (Except String (String × String)) :=
  GenerateWith fmtSrc pkg typeName output userReceiver (genImports pkg typeName)

/-- Add an entry to the import map unless its key is already present —
the effect of one successful lookup in the loop of `Generate`. -/
def addIfNew (acc : List PkgImport) (p : PkgImport) : List PkgImport :=
  if (acc.find? fun q => q.name == p.name).isSome then acc else acc ++ [p]

/-- Keep the first entry for each key, dropping later duplicates; `seen`
is the list of keys already taken. -/
def dedupGo (seen : List String) : List PkgImport → List PkgImport
  | [] => []
  | p :: rest =>
    if p.name ∈ seen then dedupGo seen rest
    else p :: dedupGo (p.name :: seen) rest

/-- First-occurrence-wins deduplication of an entry list by key. -/
def dedupByName (l : List PkgImport) : List PkgImport :=
  dedupGo [] l

/-- The import entries named by one file in traversal order, written
declaratively: for every field of a matching struct that carries a tag,
the first entry of the owning file's import list whose alias equals the
qualifier of the field's declared type, when one exists. -/
def taggedFieldEntries (f : File) (typeName : String) : List PkgImport :=
  (f.structs.filter fun st => st.name == typeName).flatMap fun st =>
    (st.fields.filter fun fld => fld.tag.isSome).filterMap fun fld =>
      f.imports.find? fun p => p.name == qualifier fld.dataType

/-- All import entries named by the package in traversal order. -/
def importEntries (pkg : Package) (typeName : String) : List PkgImport :=
  pkg.files.flatMap fun f => taggedFieldEntries f typeName

/-- Whether a field produces at least one emitted accessor. -/
def emitsAccessor (fld : Field) : Bool :=
  match fld.tag with
  | none => false
  | some tg => tg.getter.isSome || tg.setter.isSome

/-- Whether a declared type has a dotted qualifier once a leading pointer
marker is stripped. -/
def hasDotQualifier (dataType : String) : Bool :=
  (stripPtr dataType).toList.contains '.'

/-- The import set as the claim under scrutiny words it: entries resolved
from the owning file's import list for the qualifiers of the declared
types of fields that produce at least one emitted accessor, where a type
without a dotted qualifier contributes nothing.  This definition follows
the specification text, to be compared with `genImports`, which follows
the code. -/
def claimImports (pkg : Package) (typeName : String) : List PkgImport :=
  dedupByName <|
    pkg.files.flatMap fun f =>
      (f.structs.filter fun st => st.name == typeName).flatMap fun st =>
        (st.fields.filter fun fld => emitsAccessor fld && hasDotQualifier fld.dataType).filterMap
          fun fld => f.imports.find? fun p => p.name == qualifier fld.dataType

/-- A formatter that always succeeds and returns its input unchanged. -/
def fmtId : String → Except String String := fun s => Except.ok s

/-- A formatter that always fails with a fixed error. -/
def fmtBoom : String → Except String String := fun _ => Except.error "expected declaration, found X"

/-- A package with no files, named `alpha`. -/
def pkgAlpha : Package := ⟨"alpha", "", []⟩

/-- A package with no files, named `beta`. -/
def pkgBeta : Package := ⟨"beta", "", []⟩

/-- A package whose only matching struct `T` has a single field that
carries a tag requesting no accessor at all, typed by the undotted name
`Foo`, while the owning file imports a package under the alias `Foo`. -/
def pkgTagNoAccessor : Package :=
  ⟨"p", "d", [⟨[⟨"Foo", "example.com/foo"⟩], [⟨"T", [⟨"f", "Foo", some ⟨none, none⟩⟩]⟩]⟩]⟩

/-- A package whose struct `T` has two getter fields typed from a pair
of imported packages `a` and `b`. -/
def pkgTwoImports : Package :=
  ⟨"p", "d",
    [⟨[⟨"a", "x/a"⟩, ⟨"b", "x/b"⟩],
      [⟨"T", [⟨"f1", "a.A", some ⟨some "", none⟩⟩, ⟨"f2", "b.B", some ⟨some "", none⟩⟩]⟩]⟩]⟩

/-- A package where the requested type `T` matches one struct whose only
field is untagged, and a non-matching struct `Other` has a tagged field. -/
def pkgUntagged : Package :=
  ⟨"models", "d",
    [⟨[⟨"q", "x/q"⟩],
      [⟨"T", [⟨"f", "int", none⟩]⟩,
       ⟨"Other", [⟨"g", "q.Q", some ⟨some "", some ""⟩⟩]⟩]⟩]⟩

/-- A package containing a struct whose name is empty, with a tagged
field, so that deriving the default receiver name indexes an empty
string. -/
def pkgEmptyStructName : Package :=
  ⟨"p", "d", [⟨[], [⟨"", [⟨"f", "int", some ⟨some "", none⟩⟩]⟩]⟩]⟩

/-- `titleChars` leaves a list unchanged when the previous character and
every listed character are non-separators. -/
theorem titleChars_id : ∀ (l : List Char) (p : Char), isSepChar p = false →
    (∀ c ∈ l, isSepChar c = false) → titleChars p l = l
  | [], _, _, _ => rfl
  | c :: rest, p, hp, hl => by
    have hc : isSepChar c = false := hl c (List.mem_cons_self _ _)
    have hrest := titleChars_id rest c hc fun d hd => hl d (List.mem_cons_of_mem _ hd)
    simp [titleChars, hp, hrest]

/-- `strings.Title` of a string whose head is a non-separator and whose
remaining characters are all non-separators upper-cases exactly the first
character. -/
theorem strTitle_ident (s : String) (c : Char) (cs : List Char)
    (hname : s.toList = c :: cs) (hc : isSepChar c = false)
    (hcs : ∀ d ∈ cs, isSepChar d = false) :
    strTitle s = (c.toUpper :: cs).asString := by
  rw [strTitle, hname]
  rw [show titleChars ' ' (c :: cs) = c.toUpper :: titleChars c cs by
    simp [titleChars, show isSepChar ' ' = true from rfl]]
  rw [titleChars_id cs c hc hcs]

/-- C1 (counterexample): the claim says the caller of `Generate` receives
the raw unformatted buffer alongside the formatting error.  It does not:
two runs whose assembled raw buffers differ (packages `alpha` and `beta`)
return the very same value to the caller when formatting fails, so the
result of `Generate` cannot carry the raw buffer — `Generate` discards it
and returns only the error. -/
theorem generate_drops_raw_buffer_cex :
    Generate fmtBoom pkgAlpha "T" "" "" = some (Except.error "expected declaration, found X") ∧
    Generate fmtBoom pkgBeta "T" "" "" = some (Except.error "expected declaration, found X") ∧
    assemble pkgAlpha "T" "" ≠ assemble pkgBeta "T" "" :=
  ⟨rfl, rfl, by decide⟩

/-- C1 (amended): when canonical formatting of the assembled buffer
fails, the `format` method returns both the raw unformatted buffer and
the formatting error to its caller inside `Generate`; `Generate` itself
then aborts, returning only the formatting error to its own caller and
writing no file, so the raw buffer is not surfaced outside `Generate`. -/
theorem format_error_surfaces_buffer_only_internally
    (fmtSrc : String → Except String String) (pkg : Package)
    (tn out rcv buf e : String)
    (hasm : assemble pkg tn rcv = some buf)
    (hfmt : fmtSrc buf = Except.error e) :
    gformat fmtSrc buf = (buf, some e) ∧
    Generate fmtSrc pkg tn out rcv = some (Except.error e) := by
  constructor
  · rw [gformat, hfmt]
  · rw [assemble] at hasm
    rw [Generate, GenerateWith, hasm, Option.map_some']
    rw [show gformat fmtSrc buf = (buf, some e) by rw [gformat, hfmt]]

/-- Witness for C1 (amended) at a concrete failing run. -/
theorem format_error_surfaces_buffer_only_internally_witness :
    gformat fmtBoom (headerAndPackage "alpha") = (headerAndPackage "alpha", some "expected declaration, found X") ∧
    Generate fmtBoom pkgAlpha "T" "" "" = some (Except.error "expected declaration, found X") :=
  format_error_surfaces_buffer_only_internally fmtBoom pkgAlpha "T" "" ""
    (headerAndPackage "alpha") "expected declaration, found X" (by decide) rfl

/-- C3 (counterexample): the claim says the default getter name is the
field name with its first letter capitalized and only that letter
changed.  For the valid Go field name `_foo` that would be `_Foo`, but
the code applies `strings.Title`, which title-cases the first character
(`'_'`, unchanged) and leaves `f` alone because `'_'` is not a separator:
the generated getter is named `_foo`, not `_Foo`. -/
theorem default_getter_name_underscore_cex :
    fieldAccessors "" "S" ⟨"_foo", "int", some ⟨some "", none⟩⟩ =
      some [renderGetter "s" "S" "_foo" "_foo" "int"] ∧
    renderGetter "s" "S" "_foo" "_foo" "int" ≠ renderGetter "s" "S" "_Foo" "_foo" "int" := by
  constructor
  · rfl
  · decide

/-- C3 (amended): for every field opted in with default naming, the
getter is named `strings.Title(field.Name)` and the setter `"Set" +
strings.Title(field.Name)`; for a field name whose first character is a
non-separator and in which no later character follows a separator (true
of every name made of ASCII letters, digits and underscores), this
capitalizes the first character and changes nothing else. -/
theorem default_method_names (rcv sn : String) (fld : Field) (r : String)
    (c : Char) (cs : List Char)
    (hr : receiverName rcv sn = some r)
    (htag : fld.tag = some ⟨some "", some ""⟩)
    (hname : fld.name.toList = c :: cs)
    (hc : isSepChar c = false) (hcs : ∀ d ∈ cs, isSepChar d = false) :
    strTitle fld.name = (c.toUpper :: cs).asString ∧
    fieldAccessors rcv sn fld =
      some [renderGetter r sn ((c.toUpper :: cs).asString) fld.name fld.dataType,
            renderSetter r sn ("Set" ++ (c.toUpper :: cs).asString) fld.name fld.dataType] := by
  have ht : strTitle fld.name = (c.toUpper :: cs).asString :=
    strTitle_ident fld.name c cs hname hc hcs
  refine ⟨ht, ?_⟩
  unfold fieldAccessors
  rw [htag]
  simp [hr, getterMethodName, setterMethodName, ht]

/-- Witness for C3 (amended): field `age` of struct `User`, default
receiver `u`, getter `Age`, setter `SetAge`. -/
theorem default_method_names_witness :
    strTitle "age" = "Age" ∧
    fieldAccessors "" "User" ⟨"age", "int", some ⟨some "", some ""⟩⟩ =
      some [renderGetter "u" "User" "Age" "age" "int",
            renderSetter "u" "User" "SetAge" "age" "int"] := by
  have h := default_method_names "" "User" ⟨"age", "int", some ⟨some "", some ""⟩⟩ "u"
    'a' ['g', 'e'] (by decide) rfl (by decide) (by decide) (by decide)
  exact ⟨h.1, h.2⟩

/-- C6: a field whose tag names both accessors explicitly yields exactly
two generated functions, the getter first, whose method names are the tag
values verbatim. -/
theorem named_accessor_pair (rcv sn : String) (fld : Field) (X Y : String)
    (htag : fld.tag = some ⟨some X, some Y⟩) (hX : X ≠ "") (hY : Y ≠ "")
    (r : String) (hr : receiverName rcv sn = some r) :
    fieldAccessors rcv sn fld =
      some [renderGetter r sn X fld.name fld.dataType,
            renderSetter r sn Y fld.name fld.dataType] := by
  unfold fieldAccessors
  rw [htag]
  simp [hr, getterMethodName, setterMethodName, hX, hY]

/-- Witness for C6 at a concrete field with named getter `X` and named
setter `Y`. -/
theorem named_accessor_pair_witness :
    fieldAccessors "self" "W" ⟨"f", "int", some ⟨some "X", some "Y"⟩⟩ =
      some [renderGetter "self" "W" "X" "f" "int",
            renderSetter "self" "W" "Y" "f" "int"] :=
  named_accessor_pair "self" "W" ⟨"f", "int", some ⟨some "X", some "Y"⟩⟩ "X" "Y" rfl
    (by decide) (by decide) "self" (by decide)

/-- C7: a field with no tag annotation at all contributes zero accessor
functions. -/
theorem untagged_field_yields_no_accessors (rcv sn : String) (fld : Field)
    (h : fld.tag = none) : fieldAccessors rcv sn fld = some [] := by
  unfold fieldAccessors
  rw [h]

/-- Witness for C7 at a concrete untagged field. -/
theorem untagged_field_yields_no_accessors_witness :
    fieldAccessors "" "User" ⟨"age", "int", none⟩ = some [] :=
  untagged_field_yields_no_accessors "" "User" ⟨"age", "int", none⟩ rfl

/-- C8: with no output override the file name comes from the requested
type name via the two ordered rewrite passes, lowercasing, the fixed
`_accessor` suffix plus the `.go` extension, joined with the scanned
directory; in particular `UserProfile` yields `user_profile_accessor.go`
and `Widget` yields `widget_accessor.go`. -/
theorem outputFile_snake_case (dir tn : String) :
    outputFile "" tn dir =
      joinPath dir (strToLower ((pass2 (pass1 tn.toList)).asString ++ "_accessor.go")) ∧
    outputFile "" "UserProfile" dir = joinPath dir "user_profile_accessor.go" ∧
    outputFile "" "Widget" dir = joinPath dir "widget_accessor.go" := by
  refine ⟨?_, ?_, ?_⟩
  · rw [outputFile]
    simp
  · have h : (if ("" : String) = "" then
        strToLower ((pass2 (pass1 "UserProfile".toList)).asString ++ "_accessor.go")
        else "") = "user_profile_accessor.go" := by
      simp [pass1, pass2]
      decide
    rw [outputFile, h]
  · have h : (if ("" : String) = "" then
        strToLower ((pass2 (pass1 "Widget".toList)).asString ++ "_accessor.go")
        else "") = "widget_accessor.go" := by
      simp [pass1, pass2]
      decide
    rw [outputFile, h]

/-- C9: the receiver name is the user override when non-empty, otherwise
the lower-cased first character of the struct name; struct `Widget` with
no override yields `w`, and override `self` yields `self`. -/
theorem receiver_override_or_first_letter (o s : String) (c : Char) (cs : List Char) :
    (o ≠ "" → receiverName o s = some o) ∧
    (s.toList = c :: cs → receiverName "" s = some c.toLower.toString) ∧
    receiverName "" "Widget" = some "w" ∧
    receiverName "self" "Widget" = some "self" := by
  refine ⟨fun h => ?_, fun h => ?_, by decide, by decide⟩
  · rw [receiverName, if_neg h]
  · rw [receiverName, if_pos rfl, h]

/-- Witness for C9, discharging both hypotheses at `Widget`/`self`. -/
theorem receiver_override_or_first_letter_witness :
    receiverName "self" "Widget" = some "self" ∧
    receiverName "" "Widget" = some "w" := by
  constructor
  · exact (receiver_override_or_first_letter "self" "Widget" 'W' "idget".toList).1 (by decide)
  · have h := (receiver_override_or_first_letter "self" "Widget" 'W' "idget".toList).2.1 (by decide)
    simpa using h

/-- C10: deriving the default receiver name indexes the first byte of the
struct name, which is only safe when every selected struct has a
non-empty name: with a non-empty name (or a non-empty override) the
derivation succeeds, while an empty struct name reaches the out-of-range
branch (a Go panic, modelled by `none`), as the end-to-end run on
`pkgEmptyStructName` shows. -/
theorem empty_struct_name_panics (o s : String) :
    receiverName "" "" = none ∧
    (s ≠ "" → (receiverName o s).isSome = true) ∧
    Generate fmtId pkgEmptyStructName "" "" "" = none := by
  refine ⟨rfl, fun hs => ?_, rfl⟩
  cases s with
  | mk data =>
    cases data with
    | nil => exact absurd rfl hs
    | cons c cs =>
      rw [receiverName]
      by_cases ho : o = ""
      · rw [if_pos ho]
        rfl
      · rw [if_neg ho]
        rfl

/-- Witness for C10 at a concrete non-empty struct name. -/
theorem empty_struct_name_panics_witness :
    (receiverName "" "X").isSome = true :=
  (empty_struct_name_panics "" "X").2.1 (by decide)

/-- A successful `find?` by name returns an entry bearing that name. -/
theorem find?_name_eq (l : List PkgImport) (k : String) (p : PkgImport)
    (h : (l.find? fun q => q.name == k) = some p) : p.name = k := by
  have := List.find?_some h
  simpa using this

/-- `resolveImport` is the identity when the owning file resolves no entry
for the qualifier. -/
theorem resolveImport_none (fi acc : List PkgImport) (dt : String)
    (h : (fi.find? fun p => p.name == qualifier dt) = none) :
    resolveImport fi acc dt = acc := by
  simp [resolveImport, h]

/-- `resolveImport` adds the resolved entry unless its key is taken. -/
theorem resolveImport_some (fi acc : List PkgImport) (dt : String) (p : PkgImport)
    (h : (fi.find? fun p => p.name == qualifier dt) = some p) :
    resolveImport fi acc dt = addIfNew acc p := by
  have hp : p.name = qualifier dt := find?_name_eq fi _ p h
  simp [resolveImport, addIfNew, h, hp]

/-- The field loop of the import collection is a fold of `addIfNew` over
the resolved entries of the fields. -/
theorem foldFields_eq (fi : List PkgImport) :
    ∀ (fl : List Field) (acc : List PkgImport),
      fl.foldl (fun a fld => resolveImport fi a fld.dataType) acc =
        (fl.filterMap fun fld =>
          fi.find? fun p => p.name == qualifier fld.dataType).foldl addIfNew acc
  | [], _ => rfl
  | fld :: fl, acc => by
    rw [List.foldl_cons, List.filterMap_cons]
    cases hf : fi.find? fun (p : PkgImport) => p.name == qualifier fld.dataType with
    | none =>
      rw [resolveImport_none fi acc _ hf]
      exact foldFields_eq fi fl acc
    | some p =>
      rw [resolveImport_some fi acc _ p hf, List.foldl_cons]
      exact foldFields_eq fi fl (addIfNew acc p)

/-- The struct loop of the import collection, as a fold over the
concatenated per-struct entry streams. -/
theorem foldStructs_eq (fi : List PkgImport) :
    ∀ (sts : List Struct) (acc : List PkgImport),
      sts.foldl (fun a st =>
          (st.fields.filter fun fld => fld.tag.isSome).foldl
            (fun a2 fld => resolveImport fi a2 fld.dataType) a) acc =
        (sts.flatMap fun st =>
          (st.fields.filter fun fld => fld.tag.isSome).filterMap fun fld =>
            fi.find? fun p => p.name == qualifier fld.dataType).foldl addIfNew acc
  | [], _ => rfl
  | st :: sts, acc => by
    rw [List.foldl_cons, List.flatMap_cons, List.foldl_append]
    rw [foldFields_eq fi _ acc]
    exact foldStructs_eq fi sts _

/-- The file loop of the import collection, as a fold over the package's
full entry stream. -/
theorem foldFiles_eq (tn : String) :
    ∀ (fls : List File) (acc : List PkgImport),
      fls.foldl (fun acc2 f =>
          (f.structs.filter fun st => st.name == tn).foldl
            (fun a st =>
              (st.fields.filter fun fld => fld.tag.isSome).foldl
                (fun a2 fld => resolveImport f.imports a2 fld.dataType) a) acc2) acc =
        (fls.flatMap fun f => taggedFieldEntries f tn).foldl addIfNew acc
  | [], _ => rfl
  | f :: fls, acc => by
    rw [List.foldl_cons, List.flatMap_cons, List.foldl_append]
    rw [show taggedFieldEntries f tn =
      ((f.structs.filter fun st => st.name == tn).flatMap fun st =>
        (st.fields.filter fun fld => fld.tag.isSome).filterMap fun fld =>
          f.imports.find? fun p => p.name == qualifier fld.dataType) from rfl]
    rw [foldStructs_eq f.imports _ acc]
    exact foldFiles_eq tn fls _

/-- The import map of `Generate` is the `addIfNew` fold of the package's
entry stream. -/
theorem genImports_eq_foldl (pkg : Package) (tn : String) :
    genImports pkg tn = (importEntries pkg tn).foldl addIfNew [] := by
  rw [genImports, importEntries]
  exact foldFiles_eq tn pkg.files []

/-- `dedupGo` only depends on the membership of `seen`. -/
theorem dedupGo_congr : ∀ (l : List PkgImport) (s₁ s₂ : List String),
    (∀ x, x ∈ s₁ ↔ x ∈ s₂) → dedupGo s₁ l = dedupGo s₂ l
  | [], _, _, _ => rfl
  | p :: l, s₁, s₂, h => by
    by_cases hp : p.name ∈ s₁
    · simp only [dedupGo, if_pos hp, if_pos ((h p.name).mp hp)]
      exact dedupGo_congr l s₁ s₂ h
    · simp only [dedupGo, if_neg hp, if_neg (fun hx => hp ((h p.name).mpr hx))]
      rw [dedupGo_congr l (p.name :: s₁) (p.name :: s₂)
        (fun x => by simp [List.mem_cons, h x])]

/-- A name-keyed `find?` succeeds exactly on the keys of the list. -/
theorem find?_isSome_iff_mem (acc : List PkgImport) (k : String) :
    (acc.find? fun q => q.name == k).isSome = true ↔ k ∈ acc.map fun q => q.name := by
  rw [List.find?_isSome]
  constructor
  · rintro ⟨x, hx, hxk⟩
    exact List.mem_map.mpr ⟨x, hx, by simpa using hxk⟩
  · intro h
    obtain ⟨x, hx, hxk⟩ := List.mem_map.mp h
    exact ⟨x, hx, by simp [hxk]⟩

/-- An `addIfNew` fold appends exactly the first-occurrence-deduplicated
entries whose keys the accumulator does not already hold. -/
theorem foldl_addIfNew_eq : ∀ (l acc : List PkgImport),
    l.foldl addIfNew acc = acc ++ dedupGo (acc.map fun q => q.name) l
  | [], acc => by simp [dedupGo]
  | p :: l, acc => by
    rw [List.foldl_cons]
    by_cases hp : p.name ∈ acc.map fun q => q.name
    · have hfind : (acc.find? fun q => q.name == p.name).isSome = true :=
        (find?_isSome_iff_mem acc p.name).mpr hp
      rw [show addIfNew acc p = acc by simp [addIfNew, hfind]]
      rw [foldl_addIfNew_eq l acc]
      simp only [dedupGo, if_pos hp]
    · have hfind : ¬((acc.find? fun q => q.name == p.name).isSome = true) :=
        fun hx => hp ((find?_isSome_iff_mem acc p.name).mp hx)
      rw [show addIfNew acc p = acc ++ [p] by simp [addIfNew, hfind]]
      rw [foldl_addIfNew_eq l (acc ++ [p])]
      simp only [dedupGo, if_neg hp, List.map_append, List.map_cons, List.map_nil]
      rw [List.append_assoc]
      rw [dedupGo_congr l ((acc.map fun q => q.name) ++ [p.name])
        (p.name :: acc.map fun q => q.name) (fun x => by simp [List.mem_append, or_comm])]
      rfl

/-- The import map of `Generate` equals the first-occurrence-wins
deduplication of the declarative entry stream. -/
theorem genImports_eq_dedup (pkg : Package) (tn : String) :
    genImports pkg tn = dedupByName (importEntries pkg tn) := by
  rw [genImports_eq_foldl, foldl_addIfNew_eq]
  rfl

/-- C2 (counterexample): the claim restricts the import set to fields that
produce at least one emitted accessor and whose declared type has a dotted
qualifier.  On `pkgTagNoAccessor` the single field has a tag requesting no
accessor at all and the undotted type `Foo`, so the claim's import set
(`claimImports`, written from the specification text) is empty, yet the
code records the alias `Foo` in the map that feeds the emitted import
block while emitting zero accessors. -/
theorem import_set_claim_cex :
    genImports pkgTagNoAccessor "T" = [⟨"Foo", "example.com/foo"⟩] ∧
    claimImports pkgTagNoAccessor "T" = [] ∧
    genAccessors "" pkgTagNoAccessor "T" = some [] ∧
    hasDotQualifier "Foo" = false :=
  ⟨rfl, rfl, rfl, rfl⟩

/-- C2 (amended): the computed import set is exactly the
first-occurrence-wins deduplication, by alias, of the entries resolved —
against the owning file's import list, first matching entry — for the
qualifier (substring before the first `.` of the pointer-stripped declared
type, the whole name when there is no dot) of every field of a matching
struct that carries a tag, whether or not that tag requests any accessor;
the emitted import block lists the aliases of these entries in ascending
order. -/
theorem import_set_characterization (pkg : Package) (tn : String) :
    genImports pkg tn = dedupByName (importEntries pkg tn) ∧
    List.Sorted StrLe (sortStrings ((genImports pkg tn).map fun p => p.name)) ∧
    (sortStrings ((genImports pkg tn).map fun p => p.name)).Perm
      ((genImports pkg tn).map fun p => p.name) :=
  ⟨genImports_eq_dedup pkg tn, List.sorted_insertionSort _ _, List.perm_insertionSort _ _⟩

/-- A name-keyed `find?` is invariant under permutation when the keys are
distinct. -/
theorem find?_eq_of_perm {l m : List PkgImport} (h : l.Perm m)
    (hnd : (l.map fun p => p.name).Nodup) (k : String) :
    (l.find? fun p => p.name == k) = (m.find? fun p => p.name == k) := by
  induction h with
  | nil => rfl
  | cons x hperm ih =>
    simp only [List.map_cons, List.nodup_cons] at hnd
    simp only [List.find?_cons]
    cases hx : x.name == k with
    | true => rfl
    | false => exact ih hnd.2
  | swap x y l =>
    simp only [List.map_cons, List.nodup_cons] at hnd
    have hxy : y.name ≠ x.name := fun he => hnd.1 (he ▸ List.mem_cons_self _ _)
    simp only [List.find?_cons]
    cases hy : y.name == k with
    | true =>
      cases hx : x.name == k with
      | true =>
        exact absurd (by
          simp only [beq_iff_eq] at hy hx
          exact hy.trans hx.symm) hxy
      | false => rfl
    | false =>
      cases hx : x.name == k with
      | true => rfl
      | false => rfl
  | trans h₁ h₂ ih₁ ih₂ =>
    rw [ih₁ hnd, ih₂ (((h₁.map fun p => p.name).nodup_iff).mp hnd)]

/-- Sorting in the Go string order is invariant under permutation of the
input. -/
theorem sortStrings_eq_of_perm {l m : List String} (h : l.Perm m) :
    sortStrings l = sortStrings m :=
  List.eq_of_perm_of_sorted
    ((List.perm_insertionSort _ l).trans (h.trans (List.perm_insertionSort _ m).symm))
    (List.sorted_insertionSort _ l) (List.sorted_insertionSort _ m)

/-- The rendered import block does not depend on the enumeration order of
the import map. -/
theorem importBlock_eq_of_perm {l m : List PkgImport} (h : l.Perm m)
    (hnd : (l.map fun p => p.name).Nodup) : importBlock l = importBlock m := by
  have hlen : l.length = m.length := h.length_eq
  have hnames : sortStrings (l.map fun p => p.name) = sortStrings (m.map fun p => p.name) :=
    sortStrings_eq_of_perm (h.map _)
  have hlookup : ∀ n, lookupPath l n = lookupPath m n := fun n => by
    unfold lookupPath
    rw [find?_eq_of_perm h hnd n]
  unfold importBlock
  rw [hlen, hnames]
  simp only [hlookup]

/-- `dedupGo` avoids the taken keys and produces pairwise-distinct keys. -/
theorem dedupGo_spec : ∀ (l : List PkgImport) (seen : List String),
    (∀ q ∈ dedupGo seen l, q.name ∉ seen) ∧ ((dedupGo seen l).map fun q => q.name).Nodup
  | [], seen => ⟨fun q hq => absurd hq (List.not_mem_nil q), List.nodup_nil⟩
  | p :: l, seen => by
    by_cases hp : p.name ∈ seen
    · simp only [dedupGo, if_pos hp]
      exact dedupGo_spec l seen
    · simp only [dedupGo, if_neg hp]
      obtain ⟨hmem, hnd⟩ := dedupGo_spec l (p.name :: seen)
      refine ⟨?_, ?_⟩
      · intro q hq
        rcases List.mem_cons.mp hq with rfl | hq'
        · exact hp
        · exact fun hqs => hmem q hq' (List.mem_cons_of_mem _ hqs)
      · rw [List.map_cons, List.nodup_cons]
        refine ⟨?_, hnd⟩
        intro hcontra
        obtain ⟨q, hq, hqn⟩ := List.mem_map.mp hcontra
        exact hmem q hq (hqn ▸ List.mem_cons_self _ _)

/-- The keys of the accumulated import map are pairwise distinct. -/
theorem genImports_name_nodup (pkg : Package) (tn : String) :
    ((genImports pkg tn).map fun p => p.name).Nodup := by
  rw [genImports_eq_dedup]
  exact (dedupGo_spec _ _).2

/-- C4: the result of `Generate` does not depend on the iteration order
of the Go import map — a run whose map enumerates in any order `l`
produces exactly the canonical result — so running `Generate` twice on the
same package model with the same type name, receiver override and output
override yields byte-identical output. -/
theorem generate_map_order_irrelevant (fmtSrc : String → Except String String)
    (pkg : Package) (tn out rcv : String) (l : List PkgImport)
    (h : l.Perm (genImports pkg tn)) :
    GenerateWith fmtSrc pkg tn out rcv l = Generate fmtSrc pkg tn out rcv := by
  have hnd : (l.map fun p => p.name).Nodup :=
    ((h.map fun p => p.name).nodup_iff).mpr (genImports_name_nodup pkg tn)
  have hw : write pkg.name l = write pkg.name (genImports pkg tn) := by
    funext accs
    unfold write
    rw [importBlock_eq_of_perm h hnd]
  rw [Generate, GenerateWith, GenerateWith]
  unfold assembleWith
  rw [hw]

/-- Witness for C4: on `pkgTwoImports` the reversed map enumeration
produces the canonical output. -/
theorem generate_map_order_irrelevant_witness :
    GenerateWith fmtId pkgTwoImports "T" "" "" [⟨"b", "x/b"⟩, ⟨"a", "x/a"⟩] =
      Generate fmtId pkgTwoImports "T" "" "" :=
  generate_map_order_irrelevant fmtId pkgTwoImports "T" "" ""
    [⟨"b", "x/b"⟩, ⟨"a", "x/a"⟩] (by decide)

/-- A field without a tag contributes no accessor text. -/
theorem fieldAccessors_of_tag_none (rcv sn : String) (fld : Field)
    (h : fld.tag = none) : fieldAccessors rcv sn fld = some [] := by
  unfold fieldAccessors
  rw [h]

/-- `mapM` over a function constantly returning `some []`. -/
theorem mapM_const_nil {α : Type} (g : α → Option (List String)) :
    ∀ (l : List α), (∀ x ∈ l, g x = some []) →
      l.mapM g = some (l.map fun _ => ([] : List String))
  | [], _ => rfl
  | x :: l, h => by
    rw [List.mapM_cons, h x (List.mem_cons_self _ _),
      mapM_const_nil g l (fun y hy => h y (List.mem_cons_of_mem _ hy))]
    rfl

/-- Flattening a list of empty lists yields the empty list. -/
theorem flatten_map_nil {α : Type} (l : List α) :
    (l.map fun _ => ([] : List String)).flatten = [] := by
  induction l with
  | nil => rfl
  | cons x l ih => simp [ih]

/-- A struct whose fields are all untagged contributes no accessors. -/
theorem structAccessors_untagged (rcv : String) (st : Struct)
    (h : ∀ fld ∈ st.fields, fld.tag = none) : structAccessors rcv st = some [] := by
  unfold structAccessors
  rw [mapM_const_nil _ st.fields
    (fun fld hf => fieldAccessors_of_tag_none rcv st.name fld (h fld hf))]
  simp [flatten_map_nil]

/-- When every matching struct has only untagged fields, no accessor text
is collected. -/
theorem genAccessors_untagged (rcv : String) (pkg : Package) (tn : String)
    (h : ∀ f ∈ pkg.files, ∀ st ∈ f.structs, st.name = tn → ∀ fld ∈ st.fields, fld.tag = none) :
    genAccessors rcv pkg tn = some [] := by
  have hfile : ∀ f ∈ pkg.files,
      (((f.structs.filter fun st => st.name == tn).mapM
        (structAccessors rcv)).map List.flatten) = some [] := by
    intro f hf
    have hst : ∀ st ∈ (f.structs.filter fun st => st.name == tn),
        structAccessors rcv st = some [] := by
      intro st hstm
      have h2 := List.mem_filter.mp hstm
      exact structAccessors_untagged rcv st (h f hf st h2.1 (by simpa using h2.2))
    rw [mapM_const_nil _ _ hst]
    simp [flatten_map_nil]
  unfold genAccessors
  rw [mapM_const_nil _ pkg.files hfile]
  simp [flatten_map_nil]

/-- When every matching struct has only untagged fields, the entry stream
of the import resolver is empty. -/
theorem importEntries_untagged (pkg : Package) (tn : String)
    (h : ∀ f ∈ pkg.files, ∀ st ∈ f.structs, st.name = tn → ∀ fld ∈ st.fields, fld.tag = none) :
    importEntries pkg tn = [] := by
  unfold importEntries taggedFieldEntries
  rw [List.flatMap_eq_nil_iff.mpr]
  intro f hf
  rw [List.flatMap_eq_nil_iff.mpr]
  intro st hstm
  have h2 := List.mem_filter.mp hstm
  have hfields : st.fields.filter (fun fld => fld.tag.isSome) = [] := by
    rw [List.filter_eq_nil_iff.mpr]
    intro fld hfld
    rw [h f hf st h2.1 (by simpa using h2.2) fld hfld]
    simp
  rw [hfields]
  rfl

/-- Appending the empty string is the identity. -/
theorem str_append_empty (s : String) : s ++ "" = s := by
  cases s with
  | mk data => simp [String.ext_iff]

/-- C5: when the requested type name matches zero structs, or matches only
structs all of whose fields are untagged, the assembled buffer is exactly
the generated-file header comment plus the package clause — no import
block and no functions — and `Generate` still writes the output file with
that (formatted) content at the resolved output path. -/
theorem empty_scaffold (fmtSrc : String → Except String String) (pkg : Package)
    (tn out rcv c : String)
    (h : ∀ f ∈ pkg.files, ∀ st ∈ f.structs, st.name = tn → ∀ fld ∈ st.fields, fld.tag = none)
    (hfmt : fmtSrc (headerAndPackage pkg.name) = Except.ok c) :
    assemble pkg tn rcv = some (headerAndPackage pkg.name) ∧
    Generate fmtSrc pkg tn out rcv =
      some (Except.ok (outputFile out tn pkg.dir, c)) := by
  have hacc : genAccessors rcv pkg tn = some [] := genAccessors_untagged rcv pkg tn h
  have himp : genImports pkg tn = [] := by
    rw [genImports_eq_dedup, importEntries_untagged pkg tn h]
    rfl
  have hwrite : write pkg.name [] [] = headerAndPackage pkg.name := by
    unfold write importBlock
    simp [str_append_empty, show String.join [] = "" from rfl]
  have hasm : assemble pkg tn rcv = some (headerAndPackage pkg.name) := by
    unfold assemble assembleWith
    rw [hacc, himp, Option.map_some', hwrite]
  refine ⟨hasm, ?_⟩
  rw [assemble] at hasm
  rw [Generate, GenerateWith, hasm, Option.map_some']
  rw [show gformat fmtSrc (headerAndPackage pkg.name) = (c, none) by rw [gformat, hfmt]]

/-- Witness for C5 on `pkgUntagged`, whose matching struct `T` has only an
untagged field, with the identity formatter. -/
theorem empty_scaffold_witness :
    assemble pkgUntagged "T" "" = some (headerAndPackage "models") ∧
    Generate fmtId pkgUntagged "T" "" "" =
      some (Except.ok (outputFile "" "T" "d", headerAndPackage "models")) :=
  empty_scaffold fmtId pkgUntagged "T" "" "" (headerAndPackage "models")
    (by decide) rfl

end Accessory
